import Mathlib

/-!
Verification development for the NeuralSolvers PINN framework components:
`PINNFramework/models/pennesmodel.py` (PennesHPM), `PINNFramework/LossTerm.py`
(LossTerm), and `PINNFramework/models/Finger_Net.py` (FingerNet).

The Python code is shallowly embedded: tensors of per-sample rows become
explicit row structures over `ℚ`, learnable 640×480 coefficient grids become
functions `Fin 640 → Fin 480 → ℚ`, Python attribute lookup on a possibly
missing attribute becomes `Option` plus `getAttr`, and PyTorch advanced
indexing (which accepts negative indices down to `-size` and raises
`IndexError` beyond that) becomes `pyIndex`.  Fallible method calls return
`Except PyErr`.
-/

/-- Python-level runtime errors that the embedded code can raise. -/
inductive PyErr where
  | attributeError (attr : String)
  | indexError
  | typeError
deriving DecidableEq, Repr

/-- Reading `self.attr`: returns the stored value, or raises `AttributeError`
when the attribute was never assigned. -/
def getAttr {α : Type} (attr : String) : Option α → Except PyErr α
  | some a => .ok a
  | none => .error (.attributeError attr)

/-- `torch.nn.functional.relu` on a scalar. -/
def relu (q : ℚ) : ℚ := max 0 q

/-- PyTorch index resolution for a dimension of size `n`: an index
`i ∈ [0, n)` is used as-is, `i ∈ [-n, 0)` wraps to `i + n`, anything else
raises `IndexError`. -/
def pyIndex (n : ℕ) (i : ℤ) : Except PyErr (Fin n) :=
  if h : 0 ≤ i ∧ i < (n : ℤ) then
    .ok ⟨i.toNat, by omega⟩
  else if h2 : -(n : ℤ) ≤ i ∧ i < 0 then
    .ok ⟨(i + n).toNat, by omega⟩
  else .error .indexError

/-- The resolved position produced by `pyIndex` on an in-range index:
negative indices shifted by `n`, non-negative ones unchanged. -/
def pyWrap (n : ℕ) (i : ℤ) : ℕ :=
  if i < 0 then (i + n).toNat else i.toNat

theorem pyWrap_lt {n : ℕ} {i : ℤ} (h1 : -(n : ℤ) ≤ i) (h2 : i < (n : ℤ)) :
    pyWrap n i < n := by
  unfold pyWrap
  split <;> omega

theorem pyIndex_eq_wrap {n : ℕ} {i : ℤ} (h1 : -(n : ℤ) ≤ i) (h2 : i < (n : ℤ)) :
    pyIndex n i = .ok ⟨pyWrap n i, pyWrap_lt h1 h2⟩ := by
  unfold pyIndex pyWrap
  rcases lt_or_le i 0 with h | h
  · rw [dif_neg (by omega), dif_pos ⟨h1, h⟩]
    simp [if_pos h]
  · rw [dif_pos ⟨h, h2⟩]
    simp [if_neg (not_lt.2 h)]

theorem pyIndex_ok_of_nonneg {n : ℕ} {i : ℤ} (h0 : 0 ≤ i) (h1 : i < (n : ℤ)) :
    pyIndex n i = .ok ⟨i.toNat, by omega⟩ := by
  unfold pyIndex
  rw [dif_pos ⟨h0, h1⟩]

theorem pyIndex_ok_of_neg {n : ℕ} {i : ℤ} (h0 : -(n : ℤ) ≤ i) (h1 : i < 0) :
    pyIndex n i = .ok ⟨(i + n).toNat, by omega⟩ := by
  unfold pyIndex
  rw [dif_neg (by omega), dif_pos ⟨h0, h1⟩]

/-- A 640×480 learnable coefficient grid (`torch.randn([640,480])` parameter;
the random initial values are a parameter of the embedding). -/
def CoeffField : Type := Fin 640 → Fin 480 → ℚ

/-- Gathering `field[x_indices, y_indices]` for one sample: PyTorch advanced
indexing of the 2D grid with a pair of (possibly negative) integer indices. -/
def gather2d (a : CoeffField) (xi yi : ℤ) : Except PyErr ℚ := do
  let x ← pyIndex 640 xi
  let y ← pyIndex 480 yi
  pure (a x y)

/-- One row of the derivatives tensor
`[x, y, t, x_indices, y_indices, u, u_xx, u_yy, u_t]`.  The index columns
hold the integer grid coordinates (the `.long()` cast in the source). -/
structure DerivRow where
  x : ℚ
  y : ℚ
  t : ℚ
  x_index : ℤ
  y_index : ℤ
  u : ℚ
  u_xx : ℚ
  u_yy : ℚ
  u_t : ℚ

/-- The `config` dictionary with its two required keys. -/
structure PennesConfig where
  convection : Bool
  linear_u : Bool

/-- Attribute state of a `PennesHPM` instance.  A coefficient field is
`none` exactly when the corresponding `self.a_…` attribute was never
assigned (Python raises `AttributeError` on access). -/
structure PennesHPM where
  config : PennesConfig
  u_blood : ℚ
  a_conv : Option CoeffField
  a_linear_u_w : Option CoeffField
  a_linear_u_b : Option CoeffField

/-- `PennesHPM.__init__`: stores `config` and `u_blood`, then creates
`a_conv` only under the convection flag and `a_linear_u_w` / `a_linear_u_b`
only under the linear_u flag.  The `randn` draws are the parameters
`aC aW aB`. -/
def PennesHPM.init (config : PennesConfig) (u_blood : ℚ)
    (aC aW aB : CoeffField) : PennesHPM :=
  { config := config
    u_blood := u_blood
    a_conv := if config.convection then some aC else none
    a_linear_u_w := if config.linear_u then some aW else none
    a_linear_u_b := if config.linear_u then some aB else none }

/-- `PennesHPM.convection`: gather `a_conv` at the row's grid coordinates,
clamp with `relu`, multiply by `u_xx + u_yy`. -/
def PennesHPM.convection (m : PennesHPM) (row : DerivRow) : Except PyErr ℚ := do
  let u_xx := row.u_xx
  let u_yy := row.u_yy
  let x_indices := row.x_index
  let y_indices := row.y_index
  let a_conv_field ← getAttr "a_conv" m.a_conv
  let a_conv ← gather2d a_conv_field x_indices y_indices
  pure (relu a_conv * (u_xx + u_yy))

/-- `PennesHPM.linear_u`: gather `a_linear_u_w` and `a_linear_u_b` at the
row's grid coordinates and return `w * (u - u_blood) + b`. -/
def PennesHPM.linear_u (m : PennesHPM) (row : DerivRow) : Except PyErr ℚ := do
  let x_indices := row.x_index
  let y_indices := row.y_index
  let u_values := row.u
  let w_field ← getAttr "a_linear_u_w" m.a_linear_u_w
  let b_field ← getAttr "a_linear_u_b" m.a_linear_u_b
  let a_linear_u_w ← gather2d w_field x_indices y_indices
  let a_linear_u_b ← gather2d b_field x_indices y_indices
  pure (a_linear_u_w * (u_values - m.u_blood) + a_linear_u_b)

/-- `PennesHPM.forward`: `predicted_u_t = 0`, add the convection term if the
convection flag is set, add the linear term if the linear_u flag is set. -/
def PennesHPM.forward (m : PennesHPM) (row : DerivRow) : Except PyErr ℚ := do
  let predicted_u_t : ℚ := 0
  let predicted_u_t ←
    if m.config.convection then do
      let c ← m.convection row
      pure (predicted_u_t + c)
    else pure predicted_u_t
  let predicted_u_t ←
    if m.config.linear_u then do
      let l ← m.linear_u row
      pure (predicted_u_t + l)
    else pure predicted_u_t
  pure predicted_u_t

/-! ### Stateful method semantics

Python methods receive `self` and could in principle mutate it.  The
`…S` variants thread the instance explicitly, mirroring the method bodies
statement by statement; since no statement in `convection`, `linear_u` or
`forward` assigns to an attribute, each returns the instance it received. -/

/-- `PennesHPM.convection` with the instance threaded explicitly. -/
def PennesHPM.convectionS (m : PennesHPM) (row : DerivRow) :
    Except PyErr (ℚ × PennesHPM) := do
  let u_xx := row.u_xx
  let u_yy := row.u_yy
  let x_indices := row.x_index
  let y_indices := row.y_index
  let a_conv_field ← getAttr "a_conv" m.a_conv
  let a_conv ← gather2d a_conv_field x_indices y_indices
  pure (relu a_conv * (u_xx + u_yy), m)

/-- `PennesHPM.linear_u` with the instance threaded explicitly. -/
def PennesHPM.linear_uS (m : PennesHPM) (row : DerivRow) :
    Except PyErr (ℚ × PennesHPM) := do
  let x_indices := row.x_index
  let y_indices := row.y_index
  let u_values := row.u
  let w_field ← getAttr "a_linear_u_w" m.a_linear_u_w
  let b_field ← getAttr "a_linear_u_b" m.a_linear_u_b
  let a_linear_u_w ← gather2d w_field x_indices y_indices
  let a_linear_u_b ← gather2d b_field x_indices y_indices
  pure (a_linear_u_w * (u_values - m.u_blood) + a_linear_u_b, m)

/-- `PennesHPM.forward` with the instance threaded explicitly through the
two method calls. -/
def PennesHPM.forwardS (m : PennesHPM) (row : DerivRow) :
    Except PyErr (ℚ × PennesHPM) := do
  let predicted_u_t : ℚ := 0
  let (predicted_u_t, m1) ←
    if m.config.convection then do
      let (c, m') ← m.convectionS row
      pure (predicted_u_t + c, m')
    else pure (predicted_u_t, m)
  let (predicted_u_t, m2) ←
    if m1.config.linear_u then do
      let (l, m') ← m1.linear_uS row
      pure (predicted_u_t + l, m')
    else pure (predicted_u_t, m1)
  pure (predicted_u_t, m2)

/-! ### LossTerm (`PINNFramework/LossTerm.py`) -/

/-- The `norm` argument of `LossTerm.__init__`: a Python string or a
callable `(prediction, target) → scalar`. -/
inductive NormSpec where
  | str (s : String)
  | callable (f : List ℚ → List ℚ → ℚ)

/-- `torch.nn.MSELoss()`: mean of squared componentwise differences. -/
def mseLoss (prediction target : List ℚ) : ℚ :=
  (List.zipWith (fun p t => (p - t) ^ 2) prediction target).sum /
    (prediction.length : ℚ)

/-- `torch.nn.L1Loss()`: mean of absolute componentwise differences. -/
def l1Loss (prediction target : List ℚ) : ℚ :=
  (List.zipWith (fun p t => |p - t|) prediction target).sum /
    (prediction.length : ℚ)

/-- What `self.norm` holds after `LossTerm.__init__`: one of the two
builtin torch losses, or the constructor argument stored as-is. -/
inductive ResolvedNorm where
  | mse
  | l1
  | stored (spec : NormSpec)

/-- A constructed `LossTerm` instance. -/
structure LossTerm (Dataset : Type) where
  dataset : Dataset
  norm : ResolvedNorm
  weight : ℚ

/-- The Python comparison `norm == "Lk"`: true only when `norm` is that
very string; a callable never equals a string. -/
def NormSpec.eqStr (n : NormSpec) (s : String) : Bool :=
  match n with
  | .str s2 => s2 == s
  | .callable _ => false

/-- `LossTerm.__init__`: `if norm == 'L2'` resolves to `MSELoss()`,
`elif norm == 'L1'` to `L1Loss()`, and the `else` branch stores any other
value (string or callable) unchanged. -/
def LossTerm.init {Dataset : Type} (dataset : Dataset)
    (norm : NormSpec := .str "L2") (weight : ℚ := 1) : LossTerm Dataset :=
  { dataset := dataset
    norm :=
      if norm.eqStr "L2" then .mse
      else if norm.eqStr "L1" then .l1
      else .stored norm
    weight := weight }

/-- Calling `self.norm(prediction, target)` at evaluation time: the builtin
losses and a stored callable evaluate; a stored non-callable (a string)
raises `TypeError`. -/
def evalNorm (n : ResolvedNorm) (prediction target : List ℚ) :
    Except PyErr ℚ :=
  match n with
  | .mse => .ok (mseLoss prediction target)
  | .l1 => .ok (l1Loss prediction target)
  | .stored (.callable f) => .ok (f prediction target)
  | .stored (.str _) => .error .typeError

/-! ### FingerNet (`PINNFramework/models/Finger_Net.py`) -/

/-- `nn.Linear(in_features, out_features)` (the weights, drawn by Xavier
initialization, play no role in the claims about this component). -/
structure Linear where
  in_features : ℕ
  out_features : ℕ
deriving DecidableEq, Repr

/-- Attribute state of a `FingerNet` instance.  `in_x` and `outut_size`
are `none` when unassigned: no statement in the class ever assigns
`self.in_x`, and `self.outut_size` is a misspelling of `output_size`. -/
structure FingerNetAttrs where
  input_size : ℕ
  num_finger_layers : ℕ
  numFeatures : ℕ
  numLayers : ℕ
  lin_layers : List Linear
  lb : List ℚ
  ub : List ℚ
  normalize : Bool
  scaling : ℚ
  output_size : ℕ
  finger_nets : Option (List (List Linear))
  in_x : Option (List Linear)
  outut_size : Option ℕ

/-- The attribute assignments performed by `FingerNet.__init__` before it
calls `init_layers` (note the source hardcodes `num_finger_layers = 3`,
ignoring its argument). -/
def FingerNet.mkAttrs (lb ub : List ℚ) (inputSize outputSize : ℕ)
    (numFeatures : ℕ := 500) (numLayers : ℕ := 8)
    (normalize : Bool := true) (scaling : ℚ := 1) : FingerNetAttrs :=
  { input_size := inputSize
    num_finger_layers := 3
    numFeatures := numFeatures
    numLayers := numLayers
    lin_layers := []
    lb := lb
    ub := ub
    normalize := normalize
    scaling := scaling
    output_size := outputSize
    finger_nets := none
    in_x := none
    outut_size := none }

/-- The per-finger loop of `init_layers`: each iteration appends a fresh
`ModuleList` to `finger_nets`, appends `nn.Linear(lenInput, numFeatures)`
to `self.in_x` (reading the attribute first), then appends
`num_finger_layers` square layers to the fresh list. -/
def fingerLoop (lenInput nF nfl : ℕ) :
    ℕ → List (List Linear) → Option (List Linear) →
    Except PyErr (List (List Linear) × Option (List Linear))
  | 0, fns, inx => .ok (fns, inx)
  | k + 1, fns, inx => do
    let fns := fns ++ [[]]
    let v ← getAttr "in_x" inx
    let inx := some (v ++ [⟨lenInput, nF⟩])
    let fns := fns.dropLast ++ [List.replicate nfl (⟨nF, nF⟩ : Linear)]
    fingerLoop lenInput nF nfl k fns inx

/-- `FingerNet.init_layers`: builds the finger stacks and the trunk; the
final trunk layer reads the unassigned `self.outut_size`. -/
def FingerNet.init_layers (s : FingerNetAttrs) : Except PyErr FingerNetAttrs := do
  let lenInput := 1
  let s := { s with finger_nets := some [], lin_layers := [] }
  let (fns, inx) ←
    fingerLoop lenInput s.numFeatures s.num_finger_layers s.input_size [] s.in_x
  let lin : List Linear := [⟨s.input_size * s.numFeatures, s.numFeatures⟩]
  let lin := lin ++ List.replicate s.numLayers (⟨s.numFeatures, s.numFeatures⟩ : Linear)
  let outSz ← getAttr "outut_size" s.outut_size
  let lin := lin ++ [⟨s.numFeatures, outSz⟩]
  .ok { s with finger_nets := some fns, in_x := inx, lin_layers := lin }

/-- `FingerNet.__init__`: attribute assignments followed by `init_layers`. -/
def FingerNet.init (lb ub : List ℚ) (inputSize outputSize : ℕ)
    (numFeatures : ℕ := 500) (numLayers : ℕ := 8)
    (normalize : Bool := true) (scaling : ℚ := 1) :
    Except PyErr FingerNetAttrs :=
  FingerNet.init_layers
    (FingerNet.mkAttrs lb ub inputSize outputSize numFeatures numLayers
      normalize scaling)

/-- The normalization step of `FingerNet.forward`,
`2.0 * (x_in - self.lb) / (self.ub - self.lb) - 1.0`, acting elementwise
on a feature vector. -/
def fingerNormalize {d : ℕ} (lb ub x : Fin d → ℚ) : Fin d → ℚ :=
  fun i => 2 * (x i - lb i) / (ub i - lb i) - 1

/-! ### Helper lemmas for reducing embedded method bodies -/

@[simp]
theorem exceptBind_ok {ε α β : Type} (a : α) (f : α → Except ε β) :
    (Except.ok a >>= f) = f a := rfl

@[simp]
theorem exceptBind_error {ε α β : Type} (e : ε) (f : α → Except ε β) :
    ((Except.error e : Except ε α) >>= f) = Except.error e := rfl

@[simp]
theorem exceptPure_eq_ok {ε α : Type} (a : α) :
    (pure a : Except ε α) = Except.ok a := rfl

@[simp]
theorem getAttr_some {α : Type} (attr : String) (a : α) :
    getAttr attr (some a) = .ok a := rfl

@[simp]
theorem getAttr_none {α : Type} (attr : String) :
    (getAttr attr (none : Option α)) = .error (.attributeError attr) := rfl

theorem gather2d_eq_of_inrange (a : CoeffField) {xi yi : ℤ}
    (hx0 : 0 ≤ xi) (hx1 : xi < 640) (hy0 : 0 ≤ yi) (hy1 : yi < 480) :
    gather2d a xi yi = .ok (a ⟨xi.toNat, by omega⟩ ⟨yi.toNat, by omega⟩) := by
  unfold gather2d
  rw [pyIndex_ok_of_nonneg hx0 hx1, pyIndex_ok_of_nonneg hy0 hy1]
  rfl

theorem gather2d_eq_wrap (a : CoeffField) {xi yi : ℤ}
    (hx1 : -640 ≤ xi) (hx2 : xi < 640) (hy1 : -480 ≤ yi) (hy2 : yi < 480) :
    gather2d a xi yi =
      .ok (a ⟨pyWrap 640 xi, pyWrap_lt hx1 hx2⟩ ⟨pyWrap 480 yi, pyWrap_lt hy1 hy2⟩) := by
  unfold gather2d
  rw [pyIndex_eq_wrap hx1 hx2, pyIndex_eq_wrap hy1 hy2]
  rfl

/-! ### Concrete instances for witnesses -/

/-- A constant coefficient grid, for concrete evaluations. -/
def constField (q : ℚ) : CoeffField := fun _ _ => q

/-- A concrete derivatives row: grid index (3,4), u = 40, u_xx = 5, u_yy = -2. -/
def rowA : DerivRow := ⟨0, 0, 0, 3, 4, 40, 5, -2, 0⟩

/-- A concrete row whose Laplacian `u_xx + u_yy` vanishes. -/
def rowZ : DerivRow := ⟨0, 0, 0, 3, 4, 40, 5, -5, 0⟩

/-- A concrete row with a negative x grid index. -/
def rowNeg : DerivRow := ⟨0, 0, 0, -1, 10, 40, 5, -2, 0⟩

/-- Pennes model with both terms enabled and constant coefficient grids
w = 2 (both for convection and the linear weight) and b = 1. -/
def mBoth : PennesHPM :=
  PennesHPM.init ⟨true, true⟩ 37 (constField 2) (constField 2) (constField 1)

/-- Pennes model with only convection enabled and a negative coefficient. -/
def mNegConv : PennesHPM :=
  PennesHPM.init ⟨true, false⟩ 37 (constField (-3)) (constField 0) (constField 0)

/-- Pennes model with both terms disabled. -/
def mNone : PennesHPM :=
  PennesHPM.init ⟨false, false⟩ 37 (constField 0) (constField 0) (constField 0)

theorem mBoth_convection_rowA : mBoth.convection rowA = .ok 6 := by
  norm_num [mBoth, rowA, constField, PennesHPM.init, PennesHPM.convection,
    gather2d, getAttr, relu, pyIndex]

theorem mBoth_linear_u_rowA : mBoth.linear_u rowA = .ok 7 := by
  norm_num [mBoth, rowA, constField, PennesHPM.init, PennesHPM.linear_u,
    gather2d, getAttr, pyIndex]

/-! ### Claim theorems for PennesHPM -/

/-- C1: for every derivatives row, `PennesHPM.forward` returns the sum of
exactly the enabled terms — starting from a zero accumulator it adds the
convection term iff `config['convection']` and the linear term iff
`config['linear_u']`; with both flags false the output is zero for any
input. -/
theorem pennes_forward_sums_enabled_terms (m : PennesHPM) (row : DerivRow)
    (vc vl : ℚ)
    (hc : m.config.convection = true → m.convection row = .ok vc)
    (hl : m.config.linear_u = true → m.linear_u row = .ok vl) :
    m.forward row =
      .ok ((if m.config.convection then vc else 0) +
        (if m.config.linear_u then vl else 0)) ∧
    (m.config.convection = false → m.config.linear_u = false →
      m.forward row = .ok 0) := by
  constructor
  · cases hcv : m.config.convection <;> cases hlu : m.config.linear_u <;>
      simp_all [PennesHPM.forward]
  · intro h1 h2
    simp [PennesHPM.forward, h1, h2]

theorem pennes_forward_sums_enabled_terms_witness :
    mBoth.forward rowA =
      .ok ((if mBoth.config.convection then 6 else 0) +
        (if mBoth.config.linear_u then 7 else 0)) ∧
    (mBoth.config.convection = false → mBoth.config.linear_u = false →
      mBoth.forward rowA = .ok 0) :=
  pennes_forward_sums_enabled_terms mBoth rowA 6 7
    (fun _ => mBoth_convection_rowA) (fun _ => mBoth_linear_u_rowA)

/-- C2: for every row with in-range grid indices, `PennesHPM.linear_u`
returns exactly `w_gathered * (u - u_blood) + b_gathered`, where the
gathered values are the entries of `a_linear_u_w` and `a_linear_u_b` at
the row's `(x_index, y_index)` and `u` is column 5. -/
theorem pennes_linear_u_affine (m : PennesHPM) (row : DerivRow)
    (w b : CoeffField)
    (hw : m.a_linear_u_w = some w) (hb : m.a_linear_u_b = some b)
    (hx0 : 0 ≤ row.x_index) (hx1 : row.x_index < 640)
    (hy0 : 0 ≤ row.y_index) (hy1 : row.y_index < 480) :
    m.linear_u row =
      .ok (w ⟨row.x_index.toNat, by omega⟩ ⟨row.y_index.toNat, by omega⟩ *
          (row.u - m.u_blood) +
        b ⟨row.x_index.toNat, by omega⟩ ⟨row.y_index.toNat, by omega⟩) := by
  unfold PennesHPM.linear_u
  rw [hw, hb]
  simp [gather2d_eq_of_inrange w hx0 hx1 hy0 hy1,
    gather2d_eq_of_inrange b hx0 hx1 hy0 hy1]

/-- Witness for C2, with the spec's literal values: w = 2, b = 1, u = 40,
u_blood = 37 give 2 * (40 - 37) + 1 = 7. -/
theorem pennes_linear_u_affine_witness : mBoth.linear_u rowA = .ok 7 := by
  have h := pennes_linear_u_affine mBoth rowA (constField 2) (constField 1)
    rfl rfl (by decide) (by decide) (by decide) (by decide)
  rw [h]
  norm_num [constField, mBoth, rowA, PennesHPM.init]

/-- C3: for every row with in-range grid indices, `PennesHPM.convection`
returns `max 0 (a_conv[x_index, y_index]) * (u_xx + u_yy)`; a negative
stored coefficient contributes zero, and the term is zero whenever
`u_xx + u_yy = 0`. -/
theorem pennes_convection_clamped (m : PennesHPM) (row : DerivRow)
    (a : CoeffField) (ha : m.a_conv = some a)
    (hx0 : 0 ≤ row.x_index) (hx1 : row.x_index < 640)
    (hy0 : 0 ≤ row.y_index) (hy1 : row.y_index < 480) :
    m.convection row =
      .ok (max 0 (a ⟨row.x_index.toNat, by omega⟩ ⟨row.y_index.toNat, by omega⟩) *
        (row.u_xx + row.u_yy)) ∧
    (a ⟨row.x_index.toNat, by omega⟩ ⟨row.y_index.toNat, by omega⟩ < 0 →
      m.convection row = .ok 0) ∧
    (row.u_xx + row.u_yy = 0 → m.convection row = .ok 0) := by
  have hmain : m.convection row =
      .ok (max 0 (a ⟨row.x_index.toNat, by omega⟩ ⟨row.y_index.toNat, by omega⟩) *
        (row.u_xx + row.u_yy)) := by
    unfold PennesHPM.convection
    rw [ha]
    simp [gather2d_eq_of_inrange a hx0 hx1 hy0 hy1, relu]
  refine ⟨hmain, fun hneg => ?_, fun hzero => ?_⟩
  · rw [hmain, max_eq_left hneg.le, zero_mul]
  · rw [hmain, hzero, mul_zero]

/-- Witness for C3: a stored coefficient of -3 is clamped to zero. -/
theorem pennes_convection_clamped_witness : mNegConv.convection rowA = .ok 0 := by
  have h := pennes_convection_clamped mNegConv rowA (constField (-3))
    rfl (by decide) (by decide) (by decide) (by decide)
  exact h.2.1 (by norm_num [constField])

/-! ### Error and state analysis helpers -/

theorem pyIndex_error_eq {n : ℕ} {i : ℤ} {e : PyErr}
    (h : pyIndex n i = .error e) : e = .indexError := by
  unfold pyIndex at h
  split at h
  · exact absurd h (by simp)
  · split at h
    · exact absurd h (by simp)
    · exact (Except.error.inj h).symm

theorem gather2d_ne_attributeError (a : CoeffField) (xi yi : ℤ) (s : String) :
    gather2d a xi yi ≠ .error (.attributeError s) := by
  unfold gather2d
  cases h1 : pyIndex 640 xi with
  | error e => simp [h1, pyIndex_error_eq h1]
  | ok x =>
    cases h2 : pyIndex 480 yi with
    | error e => simp [h1, h2, pyIndex_error_eq h2]
    | ok y => simp [h1, h2]

theorem convection_ne_attributeError (m : PennesHPM) (row : DerivRow)
    (a : CoeffField) (ha : m.a_conv = some a) (s : String) :
    m.convection row ≠ .error (.attributeError s) := by
  unfold PennesHPM.convection
  rw [ha]
  simp only [getAttr_some, exceptBind_ok]
  cases h : gather2d a row.x_index row.y_index with
  | error e =>
    simp only [h, exceptBind_error]
    rw [← h]
    exact gather2d_ne_attributeError a row.x_index row.y_index s
  | ok g => simp [h]

theorem linear_u_ne_attributeError (m : PennesHPM) (row : DerivRow)
    (w b : CoeffField) (hw : m.a_linear_u_w = some w) (hb : m.a_linear_u_b = some b)
    (s : String) :
    m.linear_u row ≠ .error (.attributeError s) := by
  unfold PennesHPM.linear_u
  rw [hw, hb]
  simp only [getAttr_some, exceptBind_ok]
  cases h1 : gather2d w row.x_index row.y_index with
  | error e =>
    simp only [h1, exceptBind_error]
    rw [← h1]
    exact gather2d_ne_attributeError w row.x_index row.y_index s
  | ok g1 =>
    simp only [h1, exceptBind_ok]
    cases h2 : gather2d b row.x_index row.y_index with
    | error e =>
      simp only [h2, exceptBind_error]
      rw [← h2]
      exact gather2d_ne_attributeError b row.x_index row.y_index s
    | ok g2 => simp [h2]

theorem convectionS_eq (m : PennesHPM) (row : DerivRow) :
    m.convectionS row = (m.convection row).map (fun v => (v, m)) := by
  unfold PennesHPM.convectionS PennesHPM.convection
  cases ha : m.a_conv with
  | none => simp [Except.map]
  | some a =>
    simp only [getAttr_some, exceptBind_ok]
    cases hg : gather2d a row.x_index row.y_index <;> simp [hg, Except.map]

theorem linear_uS_eq (m : PennesHPM) (row : DerivRow) :
    m.linear_uS row = (m.linear_u row).map (fun v => (v, m)) := by
  unfold PennesHPM.linear_uS PennesHPM.linear_u
  cases hw : m.a_linear_u_w with
  | none => simp [Except.map]
  | some w =>
    cases hb : m.a_linear_u_b with
    | none => simp [Except.map]
    | some b =>
      simp only [getAttr_some, exceptBind_ok]
      cases h1 : gather2d w row.x_index row.y_index with
      | error e => simp [h1, Except.map]
      | ok g1 =>
        cases h2 : gather2d b row.x_index row.y_index <;>
          simp [h1, h2, Except.map]

theorem forwardS_eq (m : PennesHPM) (row : DerivRow) :
    m.forwardS row = (m.forward row).map (fun v => (v, m)) := by
  unfold PennesHPM.forwardS PennesHPM.forward
  cases hcv : m.config.convection <;> cases hlu : m.config.linear_u <;>
    · simp only [hcv, hlu, convectionS_eq, linear_uS_eq]
      cases hc : m.convection row <;> cases hl : m.linear_u row <;>
        simp [hcv, hlu, hc, hl, Except.map]

theorem mBoth_config_conv : mBoth.config.convection = true := rfl

theorem mBoth_config_lin : mBoth.config.linear_u = true := rfl

theorem mBoth_forward_rowA : mBoth.forward rowA = .ok 13 := by
  have h : (13 : ℚ) = 0 + 6 + 7 := by norm_num
  rw [h]
  simp [PennesHPM.forward, mBoth_config_conv, mBoth_config_lin,
    mBoth_convection_rowA, mBoth_linear_u_rowA]

theorem mNone_forward_rowA : mNone.forward rowA = .ok 0 := by
  simp [PennesHPM.forward, mNone, PennesHPM.init]

/-- C4: construction creates `a_conv` iff the convection flag and
`a_linear_u_w` / `a_linear_u_b` iff the linear_u flag; `forward` never
raises an `AttributeError` (it never touches a field whose flag is false),
and a forward pass preserves the existence-iff-flag invariant. -/
theorem pennes_field_exists_iff_flag (config : PennesConfig) (u_blood : ℚ)
    (aC aW aB : CoeffField) :
    ((PennesHPM.init config u_blood aC aW aB).a_conv).isSome = config.convection ∧
    ((PennesHPM.init config u_blood aC aW aB).a_linear_u_w).isSome = config.linear_u ∧
    ((PennesHPM.init config u_blood aC aW aB).a_linear_u_b).isSome = config.linear_u ∧
    (∀ (row : DerivRow) (s : String),
      (PennesHPM.init config u_blood aC aW aB).forward row ≠
        .error (.attributeError s)) ∧
    (∀ (row : DerivRow) (v : ℚ) (m' : PennesHPM),
      (PennesHPM.init config u_blood aC aW aB).forwardS row = .ok (v, m') →
      m'.a_conv.isSome = m'.config.convection ∧
      m'.a_linear_u_w.isSome = m'.config.linear_u ∧
      m'.a_linear_u_b.isSome = m'.config.linear_u) := by
  set m := PennesHPM.init config u_blood aC aW aB with hm
  obtain ⟨cv, lu⟩ := config
  have h1 : m.a_conv.isSome = cv := by
    cases cv <;> simp [hm, PennesHPM.init]
  have h2 : m.a_linear_u_w.isSome = lu := by
    cases lu <;> simp [hm, PennesHPM.init]
  have h3 : m.a_linear_u_b.isSome = lu := by
    cases lu <;> simp [hm, PennesHPM.init]
  have hcfg : m.config = ⟨cv, lu⟩ := rfl
  refine ⟨h1, h2, h3, fun row s => ?_, fun row v m' hfw => ?_⟩
  · have hnc : cv = true → ∀ s', m.convection row ≠ .error (.attributeError s') := by
      intro hcv s'
      refine convection_ne_attributeError m row aC ?_ s'
      simp [hm, PennesHPM.init, hcv]
    have hnl : lu = true → ∀ s', m.linear_u row ≠ .error (.attributeError s') := by
      intro hlu s'
      refine linear_u_ne_attributeError m row aW aB ?_ ?_ s'
      · simp [hm, PennesHPM.init, hlu]
      · simp [hm, PennesHPM.init, hlu]
    cases cv with
    | false =>
      cases lu with
      | false => simp [PennesHPM.forward, hcfg]
      | true =>
        cases hl : m.linear_u row with
        | error e =>
          simp only [PennesHPM.forward, hcfg, exceptPure_eq_ok, exceptBind_ok,
            hl, exceptBind_error]
          intro heq
          exact hnl rfl s (heq ▸ hl)
        | ok l => simp [PennesHPM.forward, hcfg, hl]
    | true =>
      cases hc : m.convection row with
      | error e =>
        simp only [PennesHPM.forward, hcfg, exceptPure_eq_ok, exceptBind_ok,
          hc, exceptBind_error]
        intro heq
        exact hnc rfl s (heq ▸ hc)
      | ok c =>
        cases lu with
        | false => simp [PennesHPM.forward, hcfg, hc]
        | true =>
          cases hl : m.linear_u row with
          | error e =>
            simp only [PennesHPM.forward, hcfg, exceptPure_eq_ok, exceptBind_ok,
              hc, hl, exceptBind_error]
            intro heq
            exact hnl rfl s (heq ▸ hl)
          | ok l => simp [PennesHPM.forward, hcfg, hc, hl]
  · have hstate : m' = m := by
      have := forwardS_eq m row
      rw [this] at hfw
      cases hf : m.forward row with
      | error e => rw [hf] at hfw; simp [Except.map] at hfw
      | ok u =>
        rw [hf] at hfw
        simp only [Except.map, Except.ok.injEq, Prod.mk.injEq] at hfw
        exact hfw.2.symm
    rw [hstate]
    exact ⟨h1.trans (congrArg PennesConfig.convection hcfg).symm,
      h2.trans (congrArg PennesConfig.linear_u hcfg).symm,
      h3.trans (congrArg PennesConfig.linear_u hcfg).symm⟩

/-- Witness for C4 at a concrete model with both flags disabled. -/
theorem pennes_field_exists_iff_flag_witness :
    mNone.a_conv.isSome = false ∧
    mNone.forward rowA ≠ .error (.attributeError "a_conv") ∧
    (mNone.a_conv.isSome = mNone.config.convection ∧
     mNone.a_linear_u_w.isSome = mNone.config.linear_u ∧
     mNone.a_linear_u_b.isSome = mNone.config.linear_u) := by
  have h := pennes_field_exists_iff_flag ⟨false, false⟩ 37 (constField 0)
    (constField 0) (constField 0)
  have hfwd : mNone.forwardS rowA = .ok (0, mNone) := by
    rw [forwardS_eq, mNone_forward_rowA]
    rfl
  exact ⟨h.1, h.2.2.2.1 rowA "a_conv", h.2.2.2.2 rowA 0 mNone hfwd⟩

/-- C8: a forward pass mutates no model state — whenever `forwardS` (or the
`convectionS` / `linear_uS` calls it makes) succeeds, the instance it hands
back is exactly the one it received: same config, same `u_blood`, same
coefficient fields. -/
theorem pennes_forward_no_mutation (m : PennesHPM) (row : DerivRow) :
    (∀ (v : ℚ) (m' : PennesHPM), m.convectionS row = .ok (v, m') → m' = m) ∧
    (∀ (v : ℚ) (m' : PennesHPM), m.linear_uS row = .ok (v, m') → m' = m) ∧
    (∀ (v : ℚ) (m' : PennesHPM), m.forwardS row = .ok (v, m') →
      m'.config = m.config ∧ m'.u_blood = m.u_blood ∧ m'.a_conv = m.a_conv ∧
      m'.a_linear_u_w = m.a_linear_u_w ∧ m'.a_linear_u_b = m.a_linear_u_b) := by
  have key : ∀ (e : Except PyErr ℚ) (v : ℚ) (m' : PennesHPM),
      e.map (fun v => (v, m)) = .ok (v, m') → m' = m := by
    intro e v m' h
    cases e with
    | error ε => simp [Except.map] at h
    | ok u =>
      simp only [Except.map, Except.ok.injEq, Prod.mk.injEq] at h
      exact h.2.symm
  refine ⟨fun v m' h => ?_, fun v m' h => ?_, fun v m' h => ?_⟩
  · exact key _ v m' ((convectionS_eq m row) ▸ h)
  · exact key _ v m' ((linear_uS_eq m row) ▸ h)
  · have := key _ v m' ((forwardS_eq m row) ▸ h)
    rw [this]
    exact ⟨rfl, rfl, rfl, rfl, rfl⟩

/-- Witness for C8 on a concrete model and row. -/
theorem pennes_forward_no_mutation_witness :
    mBoth = mBoth ∧
    (mBoth.config = mBoth.config ∧ mBoth.u_blood = mBoth.u_blood ∧
     mBoth.a_conv = mBoth.a_conv ∧ mBoth.a_linear_u_w = mBoth.a_linear_u_w ∧
     mBoth.a_linear_u_b = mBoth.a_linear_u_b) := by
  have h := pennes_forward_no_mutation mBoth rowA
  have hc : mBoth.convectionS rowA = .ok (6, mBoth) := by
    rw [convectionS_eq, mBoth_convection_rowA]
    rfl
  have hf : mBoth.forwardS rowA = .ok (13, mBoth) := by
    rw [forwardS_eq, mBoth_forward_rowA]
    rfl
  exact ⟨h.1 6 mBoth hc, h.2.2 13 mBoth hf⟩

/-- C10: for every row with a negative in-range grid index (x in [-640, 0)
or y in [-480, 0), the other index also in range), `convection` and
`linear_u` do not fail: the gather wraps Python-style, reading the stored
field entry at `index + size`. -/
theorem pennes_negative_index_wraps (m : PennesHPM) (row : DerivRow)
    (a w b : CoeffField)
    (ha : m.a_conv = some a) (hw : m.a_linear_u_w = some w)
    (hb : m.a_linear_u_b = some b)
    (hx1 : -640 ≤ row.x_index) (hx2 : row.x_index < 640)
    (hy1 : -480 ≤ row.y_index) (hy2 : row.y_index < 480)
    (_hneg : row.x_index < 0 ∨ row.y_index < 0) :
    m.convection row =
      .ok (relu (a ⟨pyWrap 640 row.x_index, pyWrap_lt hx1 hx2⟩
          ⟨pyWrap 480 row.y_index, pyWrap_lt hy1 hy2⟩) *
        (row.u_xx + row.u_yy)) ∧
    m.linear_u row =
      .ok (w ⟨pyWrap 640 row.x_index, pyWrap_lt hx1 hx2⟩
          ⟨pyWrap 480 row.y_index, pyWrap_lt hy1 hy2⟩ * (row.u - m.u_blood) +
        b ⟨pyWrap 640 row.x_index, pyWrap_lt hx1 hx2⟩
          ⟨pyWrap 480 row.y_index, pyWrap_lt hy1 hy2⟩) ∧
    (row.x_index < 0 → (pyWrap 640 row.x_index : ℤ) = 640 + row.x_index) ∧
    (row.y_index < 0 → (pyWrap 480 row.y_index : ℤ) = 480 + row.y_index) := by
  refine ⟨?_, ?_, fun hx => ?_, fun hy => ?_⟩
  · unfold PennesHPM.convection
    rw [ha]
    simp [gather2d_eq_wrap a hx1 hx2 hy1 hy2]
  · unfold PennesHPM.linear_u
    rw [hw, hb]
    simp [gather2d_eq_wrap w hx1 hx2 hy1 hy2, gather2d_eq_wrap b hx1 hx2 hy1 hy2]
  · unfold pyWrap
    rw [if_pos hx]
    omega
  · unfold pyWrap
    rw [if_pos hy]
    omega

/-- Witness for C10: x index -1 gathers at grid row 639. -/
theorem pennes_negative_index_wraps_witness :
    mBoth.convection rowNeg = .ok 6 ∧ mBoth.linear_u rowNeg = .ok 7 ∧
    (pyWrap 640 rowNeg.x_index : ℤ) = 640 + rowNeg.x_index := by
  have h := pennes_negative_index_wraps mBoth rowNeg (constField 2)
    (constField 2) (constField 1) rfl rfl rfl
    (by decide) (by decide) (by decide) (by decide) (Or.inl (by decide))
  refine ⟨?_, ?_, h.2.2.1 (by decide)⟩
  · rw [h.1]
    norm_num [constField, relu, rowNeg]
  · rw [h.2.1]
    norm_num [constField, mBoth, rowNeg, PennesHPM.init]

/-- C5: `LossTerm` construction resolves the norm once: `"L2"` becomes the
builtin mean-squared-error loss, `"L1"` the builtin L1 loss, and any other
value — string or callable — is stored as-is without validation; a stored
string only fails at evaluation time (`TypeError`), a stored callable
evaluates. -/
theorem lossterm_norm_resolution {Dataset : Type} (d : Dataset) (wt : ℚ) :
    ((LossTerm.init d (.str "L2") wt).norm = .mse) ∧
    ((LossTerm.init d (.str "L1") wt).norm = .l1) ∧
    (∀ s : String, s ≠ "L2" → s ≠ "L1" →
      (LossTerm.init d (.str s) wt).norm = .stored (.str s)) ∧
    (∀ f : List ℚ → List ℚ → ℚ,
      (LossTerm.init d (.callable f) wt).norm = .stored (.callable f)) ∧
    (∀ (s : String) (p t : List ℚ), s ≠ "L2" → s ≠ "L1" →
      evalNorm (LossTerm.init d (.str s) wt).norm p t = .error .typeError) ∧
    (∀ (f : List ℚ → List ℚ → ℚ) (p t : List ℚ),
      evalNorm (LossTerm.init d (.callable f) wt).norm p t = .ok (f p t)) ∧
    (∀ p t : List ℚ,
      evalNorm (LossTerm.init d (.str "L2") wt).norm p t = .ok (mseLoss p t)) ∧
    (∀ p t : List ℚ,
      evalNorm (LossTerm.init d (.str "L1") wt).norm p t = .ok (l1Loss p t)) := by
  have hL2 : (LossTerm.init d (.str "L2") wt).norm = .mse := by
    simp [LossTerm.init, NormSpec.eqStr]
  have hL1 : (LossTerm.init d (.str "L1") wt).norm = .l1 := by
    simp [LossTerm.init, NormSpec.eqStr]
  have hother : ∀ s : String, s ≠ "L2" → s ≠ "L1" →
      (LossTerm.init d (.str s) wt).norm = .stored (.str s) := by
    intro s h2 h1
    simp [LossTerm.init, NormSpec.eqStr, h2, h1]
  have hcall : ∀ f : List ℚ → List ℚ → ℚ,
      (LossTerm.init d (.callable f) wt).norm = .stored (.callable f) := by
    intro f
    simp [LossTerm.init, NormSpec.eqStr]
  refine ⟨hL2, hL1, hother, hcall, ?_, ?_, ?_, ?_⟩
  · intro s p t h2 h1
    rw [hother s h2 h1]
    rfl
  · intro f p t
    rw [hcall f]
    rfl
  · intro p t
    rw [hL2]
    rfl
  · intro p t
    rw [hL1]
    rfl

/-- Witness for C5 at the unrecognized string "foo" and at "L2". -/
theorem lossterm_norm_resolution_witness :
    (LossTerm.init () (.str "foo") 1).norm = .stored (.str "foo") ∧
    evalNorm (LossTerm.init () (.str "foo") 1).norm [1] [0] = .error .typeError ∧
    (LossTerm.init () (.str "L2") 1).norm = .mse := by
  have h := lossterm_norm_resolution () 1
  exact ⟨h.2.2.1 "foo" (by decide) (by decide),
    h.2.2.2.2.1 "foo" [1] [0] (by decide) (by decide), h.1⟩

/-- C6: with per-feature bounds `lb i < ub i`, the FingerNet normalization
`2 * (x - lb) / (ub - lb) - 1` maps the lower bound exactly to -1 and the
upper bound exactly to +1, independently in each feature column. -/
theorem fingernet_normalize_bounds {d : ℕ} (lb ub : Fin d → ℚ) (i : Fin d)
    (h : lb i < ub i) :
    fingerNormalize lb ub lb i = -1 ∧ fingerNormalize lb ub ub i = 1 := by
  have hne : ub i - lb i ≠ 0 := sub_ne_zero.mpr h.ne'
  constructor
  · unfold fingerNormalize
    rw [sub_self, mul_zero, zero_div, zero_sub]
  · unfold fingerNormalize
    rw [mul_div_assoc, div_self hne]
    norm_num

/-- Witness for C6 with bounds 0 < 1 in a one-feature column. -/
theorem fingernet_normalize_bounds_witness :
    fingerNormalize (fun _ : Fin 1 => (0 : ℚ)) (fun _ => 1) (fun _ => 0) 0 = -1 ∧
    fingerNormalize (fun _ : Fin 1 => (0 : ℚ)) (fun _ => 1) (fun _ => 1) 0 = 1 :=
  fingernet_normalize_bounds (fun _ => 0) (fun _ => 1) 0 (by norm_num)

/-- C9: for every `input_size ≥ 1`, FingerNet construction fails with an
`AttributeError` on `in_x` — `init_layers` appends to `self.in_x`, which no
statement of the class ever initializes — so no instance with at least one
input feature is constructible and `forward` is unreachable. -/
theorem fingernet_init_attribute_error (lb ub : List ℚ)
    (inputSize outputSize numFeatures numLayers : ℕ) (normalize : Bool)
    (scaling : ℚ) (h : 1 ≤ inputSize) :
    FingerNet.init lb ub inputSize outputSize numFeatures numLayers
      normalize scaling = .error (.attributeError "in_x") := by
  obtain ⟨k, rfl⟩ : ∃ k, inputSize = k + 1 := ⟨inputSize - 1, by omega⟩
  unfold FingerNet.init FingerNet.init_layers FingerNet.mkAttrs
  simp [fingerLoop]

/-- Witness for C9 with two input features. -/
theorem fingernet_init_attribute_error_witness :
    FingerNet.init [0] [1] 2 1 500 8 true 1 = .error (.attributeError "in_x") :=
  fingernet_init_attribute_error [0] [1] 2 1 500 8 true 1 (by omega)

/-- C7 (code defect): the forward pipeline the spec describes is
unreachable — already with a single input feature, construction fails in
`init_layers` reading the never-initialized `self.in_x`, so `forward`
can never run. -/
theorem fingernet_forward_pipeline_unreachable :
    FingerNet.init [0] [1] 1 1 500 8 true 1 = .error (.attributeError "in_x") := by
  unfold FingerNet.init FingerNet.init_layers FingerNet.mkAttrs
  simp [fingerLoop]
